import Mathlib

/-!
Verification of the residual/statistics engine of PINT (file pint/residuals.py).

The numeric arrays of the Python code are embedded as lists (or functions on Fin n)
of rationals; machine floats carry exact rational values here, and the special
value +infinity produced by the chi-squared paths is the top element of WithTop.
Python exceptions are embedded with Except; the fact that a mutating method can
leave its object changed even when it raises is embedded by returning the new
state together with an optional error.

External collaborators that pint/residuals.py imports from modules not present in
the repository snapshot (pint.phase.Phase, pint.utils.weighted_mean) are modelled
from the specification; the generalized-least-squares evaluator (pint.fitter) is
kept fully abstract, as a function parameter.
-/

namespace PintResiduals

/-- Modelled from the spec: the class Phase of the module pint/phase.py, which is
not part of the source snapshot.  A two-component extended-precision cyclic phase:
integer cycle count plus fractional cycle.  The constructor normalizes so that the
fractional part is the signed offset to the nearest integer cycle, and arithmetic
preserves the split. -/
structure Phase where
  int : ℤ
  frac : ℚ
deriving DecidableEq, Repr

instance : Inhabited Phase := ⟨⟨0, 0⟩⟩

/-- Modelled from the spec: the normalizing Phase constructor.  The total value
int + frac is preserved while the fractional component becomes the signed offset
to the nearest integer. -/
def Phase.norm (i : ℤ) (f : ℚ) : Phase :=
  ⟨i + round f, f - round f⟩

/-- Modelled from the spec: Phase subtraction, componentwise followed by the
constructor normalization. -/
def Phase.sub (p q : Phase) : Phase :=
  Phase.norm (p.int - q.int) (p.frac - q.frac)

/-- The numeric value represented by a Phase: integer part plus fractional part.
This is the quantity the source calls residualphase.int + residualphase.frac. -/
def Phase.value (p : Phase) : ℚ :=
  (p.int : ℚ) + p.frac

/-- Modelled from the spec: pint.utils.weighted_mean (module pint/utils.py is not
part of the source snapshot).  Weighted mean of values v with non-negative
weights w: sum of w*v divided by sum of w. -/
def weighted_mean (v w : List ℚ) : ℚ :=
  (List.zipWith (· * ·) w v).sum / w.sum

/-- Plain arithmetic mean of a list, the numpy mean() used by the unweighted
mean-subtraction branch. -/
def listMean (l : List ℚ) : ℚ :=
  l.sum / (l.length : ℚ)

/-- The observation set as seen by the residual engine: get_errors() values in
microseconds, and the observation count ntoas. -/
structure TOAs where
  errors_us : List ℚ
  ntoas : ℕ

/-- A timing-model parameter object as dereferenced by residuals.py: a value, a
units string and a frozen flag. -/
structure Param where
  value : ℚ
  units : String
  frozen : Bool
deriving DecidableEq, Repr

/-- The timing model as seen by residuals.py: the list params of parameter names,
Python attribute lookup (None when the attribute is absent, in which case the
lookup raises AttributeError), and the has_correlated_errors flag. -/
structure TModel where
  params : List String
  attrs : String → Option Param
  has_correlated_errors : Bool

/-- Python exceptions raised by the embedded methods. -/
inductive PyErr where
  | attributeError
  | valueError (msg : String)
  | nameError
deriving DecidableEq, Repr

/-- Python attribute access getattr(model, name): the parameter object when the
attribute exists, AttributeError otherwise. -/
def getattrM (m : TModel) (n : String) : Except PyErr Param :=
  match m.attrs n with
  | some p => Except.ok p
  | none => Except.error PyErr.attributeError

/-- The outcome of the external generalized-least-squares evaluator
(GLSFitter.fit_toas, module pint/fitter.py, kept abstract): either a chi-squared
value or a linear-algebra degeneracy failure (scipy LinAlgError). -/
inductive GLSOutcome where
  | ok (chi2 : ℚ)
  | linAlgError (msg : String)
deriving DecidableEq, Repr

/-- Residuals.calc_chi2.  If the model has correlated errors, delegate to the
abstract GLS evaluator called with maxiter = 0 and the given full_cov flag,
returning its chi-squared on success; a LinAlgError is caught, a warning logged
(second component true) and +infinity returned.  Otherwise, if any TOA error is
exactly zero return +infinity, else return the sum of
(time_resid / error-converted-to-seconds)^2; get_errors() is in microseconds so
the conversion to seconds divides by 10^6. -/
def calc_chi2 (m : TModel) (toas : TOAs) (gls : ℕ → Bool → GLSOutcome)
    (time_resids : List ℚ) (full_cov : Bool) : WithTop ℚ × Bool :=
  if m.has_correlated_errors then
    match gls 0 full_cov with
    | GLSOutcome.ok v => ((v : ℚ), false)
    | GLSOutcome.linAlgError _ => (⊤, true)
  else
    if toas.errors_us.any (fun e => decide (e = 0)) then (⊤, false)
    else
      (((List.zipWith (fun r e => (r / (e / 1000000)) ^ 2) time_resids toas.errors_us).sum : ℚ),
        false)

/-- The "nearest" tracking branch of Residuals.calc_phase_resids plus the shared
mean-subtraction tail.  modelphase is the sequence model.phase(toas) plus the
delta_pulse_number phase jumps, already formed by the external model; errors_us
are get_errors() values.  When subtract_mean is set the phase of the first
observation is first subtracted as a zero reference (an empty sequence makes the
index [0] raise); the integer part of each phase is then discarded by rebuilding
a Phase with zero integer component; finally the plain or error-weighted mean is
subtracted, the weighted branch raising when some TOA error is exactly zero. -/
def calc_phase_resids_nearest (subtract_mean use_weighted_mean : Bool)
    (modelphase : List Phase) (errors_us : List ℚ) : Except String (List ℚ) :=
  if subtract_mean && modelphase.isEmpty then Except.error "IndexError" else
  let mp := if subtract_mean then
      modelphase.map (fun p => Phase.sub p (Phase.norm modelphase.headI.int modelphase.headI.frac))
    else modelphase
  let full := mp.map (fun p => (Phase.norm 0 p.frac).value)
  if !subtract_mean then Except.ok full
  else if !use_weighted_mean then Except.ok (full.map (fun x => x - listMean full))
  else if errors_us.any (fun e => decide (e = 0)) then
    Except.error "Some TOA errors are zero - cannot calculate residuals"
  else
    Except.ok (full.map (fun x => x - weighted_mean full (errors_us.map (fun e => 1 / e ^ 2))))

/-- The recognized spin-frequency parameter names of Residuals.get_PSR_freq. -/
def F0names : List String := ["F0", "nu"]

/-- How many recognized spin-frequency names appear among the model parameters. -/
def nF0count (m : TModel) : ℕ :=
  F0names.countP (fun n => decide (n ∈ m.params))

/-- Residuals.get_PSR_freq (modelF0 branch).  The units sanity check dereferences
model.F0 unconditionally but only constructs, never raises, its ValueError; the
loop then counts recognized names among model.params, keeping the last matching
value; zero or more than one match raises ValueError, otherwise the value is
returned (in Hz). -/
def get_PSR_freq (m : TModel) : Except PyErr ℚ := do
  let f0attr ← getattrM m "F0"
  let _unitsBad := f0attr.units ≠ "Hz"
  let r ← F0names.foldlM
    (fun (acc : Option ℚ × ℕ) n =>
      if n ∈ m.params then do
        let p ← getattrM m n
        pure (some p.value, acc.2 + 1)
      else pure acc)
    ((none : Option ℚ), 0)
  if r.2 = 0 then
    throw (PyErr.valueError "no PSR frequency parameter found")
  else if r.2 > 1 then
    throw (PyErr.valueError "more than one PSR frequency parameter found")
  else
    match r.1 with
    | some v => pure v
    | none => throw PyErr.nameError

/-- The number of free (non-frozen) parameters counted by the get_dof loop. -/
def numFree (m : TModel) : ℕ :=
  m.params.countP (fun p =>
    match m.attrs p with
    | some par => !par.frozen
    | none => false)

/-- The body of the get_dof parameter loop: dereference the parameter and
subtract one from the running count when it is not frozen. -/
def dofStep (m : TModel) (d : ℤ) (p : String) : Except PyErr ℤ := do
  let par ← getattrM m p
  pure (d - if !par.frozen then 1 else 0)

/-- Residuals.get_dof: start from toas.ntoas, subtract one per non-frozen model
parameter, then subtract one more for the implicit global offset. -/
def get_dof (toas : TOAs) (m : TModel) : Except PyErr ℤ := do
  let dof ← m.params.foldlM (dofStep m) ((toas.ntoas : ℤ))
  pure (dof - 1)

/-- The per-epoch normalization of Residuals.ecorr_average:
a_norm = dot(U.T, wt), with wt the per-observation weights. -/
def a_norm (n m : ℕ) (U : Fin n → Fin m → ℚ) (wt : Fin n → ℚ) : Fin m → ℚ :=
  fun e => ∑ i, U i e * wt i

/-- The square of the per-epoch combined uncertainty of Residuals.ecorr_average
(the source returns its square root): 1/a_norm plus the correlated-variance
contribution ecorr_err2, with wt = 1/err^2, and ecorr_err2 multiplied by 0 when
use_noise_model is false (raw uncertainties requested). -/
def ecorr_avg_errors_sq (n m : ℕ) (U : Fin n → Fin m → ℚ) (err : Fin n → ℚ)
    (ecorr_err2 : Fin m → ℚ) (use_noise_model : Bool) : Fin m → ℚ :=
  let ec := if use_noise_model then ecorr_err2 else fun _ => 0
  let wt := fun i => 1 / (err i * err i)
  fun e => 1 / a_norm n m U wt e + ec e

/-- A residual source as consumed by CombinedResiduals: its unit-stripped value
vector resids_value, its cached chi-squared scalar, and its type tag. -/
structure ResidualObj where
  resids_value : List ℚ
  chi2 : WithTop ℚ
  residual_type : String

/-- CombinedResiduals.resids: hstack of the sources' unit-stripped value vectors,
in input-list order. -/
def CombinedResiduals.resids (objs : List ResidualObj) : List ℚ :=
  (objs.map (fun r => r.resids_value)).flatten

/-- CombinedResiduals.chi2: fold the sources' cached chi-squared values into a
running sum starting from 0. -/
def CombinedResiduals.chi2 (objs : List ResidualObj) : WithTop ℚ :=
  objs.foldl (fun acc r => acc + r.chi2) 0

/-- The timing model as seen by WidebandDMResiduals: its dm_value prediction
function on an observation set. -/
structure DMModel where
  dm_value : TOAs → List ℚ

/-- The state of a WidebandDMResiduals object: besides the stored observation
set, model, measured DM data/errors and flags, it holds the callable
get_model_value bound at construction and the attribute model_func that
update_model later writes (absent until then). -/
structure WBState where
  toas : TOAs
  model : DMModel
  get_model_value : TOAs → List ℚ
  model_func : Option (TOAs → List ℚ)
  dm_data : List ℚ
  dm_error : List ℚ
  subtract_mean : Bool
  use_weighted_mean : Bool

/-- WidebandDMResiduals.__init__: binds get_model_value to the model's dm_value
at construction; dm_data and dm_error stand for the values get_dm_data extracts
from the TOA flags. -/
def WidebandDMResiduals.init (toas : TOAs) (model : DMModel)
    (dm_data dm_error : List ℚ) (subtract_mean use_weighted_mean : Bool) : WBState :=
  { toas := toas
    model := model
    get_model_value := model.dm_value
    model_func := none
    dm_data := dm_data
    dm_error := dm_error
    subtract_mean := subtract_mean
    use_weighted_mean := use_weighted_mean }

/-- WidebandDMResiduals.calc_resids: measured DM minus the prediction obtained
through the stored callable get_model_value, then the plain or error-weighted
mean subtraction (the weighted branch raising on a zero DM error). -/
def WidebandDMResiduals.calc_resids (s : WBState) : Except String (List ℚ) :=
  let model_value := s.get_model_value s.toas
  let resids := List.zipWith (fun d v => d - v) s.dm_data model_value
  if !s.subtract_mean then Except.ok resids
  else if !s.use_weighted_mean then Except.ok (resids.map (fun x => x - listMean resids))
  else if s.dm_error.any (fun e => decide (e = 0)) then
    Except.error "Some DM errors are zero - cannot calculate the weighted residuals."
  else
    let w := s.dm_error.map (fun e => 1 / e ^ 2)
    let wm := (List.zipWith (fun r wi => r * wi) resids w).sum / w.sum
    Except.ok (resids.map (fun x => x - wm))

/-- WidebandDMResiduals.update_model: replaces the stored model and assigns the
new model's dm_value to the attribute model_func; get_model_value is untouched. -/
def WidebandDMResiduals.update_model (s : WBState) (new_model : DMModel) : WBState :=
  { s with model := new_model, model_func := some new_model.dm_value }

/-- The mutable state of a Residuals object touched by Residuals.update. -/
structure RState where
  toas : Option TOAs
  model : Option TModel
  phase_resids : Option (List ℚ)
  time_resids : Option (List ℚ)
  chi2cache : Option ℚ
  dof : ℤ

/-- Residuals.update: when the observation set or the model is absent it first
overwrites phase_resids and time_resids with None and only then raises; on the
success path it recomputes both residual sequences (through the supplied
recomputation functions standing for calc_phase_resids and calc_time_resids),
clears the chi-squared cache and recomputes the degrees of freedom.  The
returned pair is the state of the object after the call together with the error
raised, if any. -/
def Residuals.update (recalcPhase recalcTime : TOAs → TModel → List ℚ)
    (recalcDof : TOAs → TModel → ℤ) (s : RState) : RState × Option String :=
  let s1 := if s.toas.isNone || s.model.isNone then
      { s with phase_resids := none, time_resids := none }
    else s
  match s.toas, s.model with
  | none, _ => (s1, some "No TOAs provided for residuals update")
  | some _, none => (s1, some "No model provided for residuals update")
  | some t, some m =>
      ({ s1 with
          phase_resids := some (recalcPhase t m)
          time_resids := some (recalcTime t m)
          chi2cache := none
          dof := recalcDof t m }, none)

/-! Helper lemmas. -/

/-- Rebuilding a phase with zero integer component preserves the represented
value: the normalization moves cycles between the components but their sum is
the input fraction. -/
lemma phase_norm_zero_value (f : ℚ) : (Phase.norm 0 f).value = f := by
  simp only [Phase.norm, Phase.value]
  push_cast
  ring

/-- A concrete model with three parameters of which two are free. -/
def twoFreeModel : TModel :=
  { params := ["A", "B", "C"]
    attrs := fun s =>
      if s = "A" then some ⟨1, "", false⟩
      else if s = "B" then some ⟨2, "", false⟩
      else if s = "C" then some ⟨3, "", true⟩
      else none
    has_correlated_errors := false }

/-- When the parameter resolves, the get_dof loop body is a plain subtraction. -/
lemma dofStep_ok (m : TModel) (d : ℤ) (p : String) (par : Param)
    (hpar : m.attrs p = some par) :
    dofStep m d p = Except.ok (d - if !par.frozen then 1 else 0) := by
  simp [dofStep, getattrM, hpar]

/-- The get_dof parameter loop subtracts from its accumulator exactly the
number of non-frozen parameters, provided every listed parameter resolves. -/
lemma get_dof_foldlM (m : TModel) (ps : List String)
    (hwf : ∀ p ∈ ps, (m.attrs p).isSome) (d : ℤ) :
    ps.foldlM (dofStep m) d =
    Except.ok
      (d - (ps.countP (fun p =>
        match m.attrs p with
        | some par => !par.frozen
        | none => false) : ℤ)) := by
  induction ps generalizing d with
  | nil =>
    simp only [List.foldlM_nil, List.countP_nil, Nat.cast_zero, sub_zero]
    rfl
  | cons p ps ih =>
    obtain ⟨par, hpar⟩ := Option.isSome_iff_exists.mp (hwf p (by simp))
    rw [List.foldlM_cons, dofStep_ok m d p par hpar]
    have hbind :
        (Except.ok (ε := PyErr) (d - if !par.frozen then 1 else 0) >>= fun x =>
          ps.foldlM (dofStep m) x) =
        ps.foldlM (dofStep m) (d - if !par.frozen then 1 else 0) := rfl
    rw [hbind, ih (fun q hq => hwf q (by simp [hq])), List.countP_cons]
    simp only [hpar]
    cases par.frozen <;> simp [sub_sub, add_comm]

/-- get_dof equals observation count minus free-parameter count minus one. -/
lemma get_dof_eq (toas : TOAs) (m : TModel)
    (hwf : ∀ p ∈ m.params, (m.attrs p).isSome) :
    get_dof toas m = Except.ok ((toas.ntoas : ℤ) - (numFree m : ℤ) - 1) := by
  unfold get_dof
  have hbind :
      (do
        let dof ← m.params.foldlM (dofStep m) ((toas.ntoas : ℤ))
        pure (dof - 1) : Except PyErr ℤ) =
      (m.params.foldlM (dofStep m) ((toas.ntoas : ℤ)) >>= fun dof =>
        Except.ok (dof - 1)) := rfl
  rw [hbind, get_dof_foldlM m m.params hwf]
  rfl

/-! Claim theorems. -/

/-- C1: for a model without correlated errors, calc_chi2 returns exactly the sum
over all observations of (time_residual / uncertainty)^2 with the uncertainties
converted from microseconds to seconds, whenever every uncertainty is nonzero,
for every observation count at least 2; if any uncertainty is exactly zero it
returns +infinity instead. -/
theorem calc_chi2_uncorrelated_sum (m : TModel) (toas : TOAs)
    (gls : ℕ → Bool → GLSOutcome) (time_resids : List ℚ) (full_cov : Bool)
    (hm : m.has_correlated_errors = false)
    (_hcount : 2 ≤ toas.errors_us.length)
    (_hlen : time_resids.length = toas.errors_us.length) :
    ((∀ e ∈ toas.errors_us, e ≠ 0) →
      (calc_chi2 m toas gls time_resids full_cov).1 =
        ((List.zipWith (fun r e => (r / (e / 1000000)) ^ 2)
            time_resids toas.errors_us).sum : ℚ)) ∧
    ((0 : ℚ) ∈ toas.errors_us →
      (calc_chi2 m toas gls time_resids full_cov).1 = ⊤) := by
  constructor
  · intro h
    have hany : toas.errors_us.any (fun e => decide (e = 0)) = false := by
      simp only [List.any_eq_false, decide_eq_true_eq]
      exact h
    simp [calc_chi2, hm, hany]
  · intro h0
    have hany : toas.errors_us.any (fun e => decide (e = 0)) = true := by
      simp only [List.any_eq_true, decide_eq_true_eq]
      exact ⟨0, h0, rfl⟩
    simp [calc_chi2, hm, hany]

/-- Witness for C1 at a concrete input: two observations with time residuals
1 s and 2 s and uncertainties 10^6 us and 2*10^6 us (that is, 1 s and 2 s) give
chi-squared 1 + 1 = 2, and replacing the first uncertainty with zero gives
+infinity. -/
theorem calc_chi2_uncorrelated_sum_witness :
    (calc_chi2 ⟨[], fun _ => none, false⟩ ⟨[1000000, 2000000], 2⟩
        (fun _ _ => GLSOutcome.ok 0) [1, 2] false).1 = ((2 : ℚ) : WithTop ℚ) ∧
    (calc_chi2 ⟨[], fun _ => none, false⟩ ⟨[0, 2000000], 2⟩
        (fun _ _ => GLSOutcome.ok 0) [1, 2] false).1 = ⊤ := by
  constructor
  · have h := (calc_chi2_uncorrelated_sum ⟨[], fun _ => none, false⟩
      ⟨[1000000, 2000000], 2⟩ (fun _ _ => GLSOutcome.ok 0) [1, 2] false
      rfl (by decide) rfl).1 (by decide)
    rw [h]
    norm_num [List.zipWith_cons_cons, List.sum_cons]
  · exact (calc_chi2_uncorrelated_sum ⟨[], fun _ => none, false⟩
      ⟨[0, 2000000], 2⟩ (fun _ _ => GLSOutcome.ok 0) [1, 2] false
      rfl (by decide) rfl).2 (by decide)

/-- C2: the zero-uncertainty boundary policy is split: with at least one exactly
zero uncertainty, the independent-noise chi-squared returns the soft value
+infinity, while the error-weighted-mean path of the phase-residual computation
raises a hard data-quality error. -/
theorem zero_uncertainty_policy_split (m : TModel) (toas : TOAs)
    (gls : ℕ → Bool → GLSOutcome) (time_resids : List ℚ) (full_cov : Bool)
    (modelphase : List Phase)
    (hm : m.has_correlated_errors = false)
    (h0 : (0 : ℚ) ∈ toas.errors_us)
    (hne : modelphase ≠ []) :
    (calc_chi2 m toas gls time_resids full_cov).1 = ⊤ ∧
    calc_phase_resids_nearest true true modelphase toas.errors_us =
      Except.error "Some TOA errors are zero - cannot calculate residuals" := by
  have hany : toas.errors_us.any (fun e => decide (e = 0)) = true := by
    simp only [List.any_eq_true, decide_eq_true_eq]
    exact ⟨0, h0, rfl⟩
  constructor
  · simp [calc_chi2, hm, hany]
  · have hempty : modelphase.isEmpty = false := by
      simpa [List.isEmpty_iff] using hne
    simp [calc_phase_resids_nearest, hempty, hany]

/-- Witness for C2 at a concrete input: one zero uncertainty makes the
independent chi-squared +infinity and the weighted phase-residual path an
error. -/
theorem zero_uncertainty_policy_split_witness :
    (calc_chi2 ⟨[], fun _ => none, false⟩ ⟨[0, 1], 2⟩
        (fun _ _ => GLSOutcome.ok 0) [1, 2] false).1 = ⊤ ∧
    calc_phase_resids_nearest true true [⟨0, 1/4⟩, ⟨3, -1/3⟩] [0, 1] =
      Except.error "Some TOA errors are zero - cannot calculate residuals" :=
  zero_uncertainty_policy_split ⟨[], fun _ => none, false⟩ ⟨[0, 1], 2⟩
    (fun _ _ => GLSOutcome.ok 0) [1, 2] false [⟨0, 1/4⟩, ⟨3, -1/3⟩]
    rfl (by decide) (by decide)

/-- C3: under "nearest" tracking, when mean subtraction is disabled the raw
fractional phases are returned unchanged, for either value of the weighting
flag, with no first-observation reference correction; when mean subtraction is
enabled — in the unweighted branch and in the weighted branch alike — the phase
of the first observation is subtracted as a zero reference before the integer
part is discarded, and the result is the (plain or error-weighted) mean-
subtracted sequence of the resulting fractional parts, the weighted branch
raising when some uncertainty is zero. -/
theorem nearest_first_obs_reference_iff_subtract_mean :
    (∀ (use_weighted_mean : Bool) (modelphase : List Phase) (errors_us : List ℚ),
      calc_phase_resids_nearest false use_weighted_mean modelphase errors_us =
        Except.ok (modelphase.map (fun p => p.frac))) ∧
    (∀ (p0 : Phase) (rest : List Phase) (errors_us : List ℚ),
      calc_phase_resids_nearest true false (p0 :: rest) errors_us =
        Except.ok
          (((p0 :: rest).map
              (fun p => (Phase.sub p (Phase.norm p0.int p0.frac)).frac)).map
            (fun x => x - listMean ((p0 :: rest).map
              (fun p => (Phase.sub p (Phase.norm p0.int p0.frac)).frac))))) ∧
    (∀ (p0 : Phase) (rest : List Phase) (errors_us : List ℚ),
      ((0 : ℚ) ∉ errors_us →
        calc_phase_resids_nearest true true (p0 :: rest) errors_us =
          Except.ok
            (((p0 :: rest).map
                (fun p => (Phase.sub p (Phase.norm p0.int p0.frac)).frac)).map
              (fun x => x - weighted_mean
                ((p0 :: rest).map
                  (fun p => (Phase.sub p (Phase.norm p0.int p0.frac)).frac))
                (errors_us.map (fun e => 1 / e ^ 2))))) ∧
      ((0 : ℚ) ∈ errors_us →
        calc_phase_resids_nearest true true (p0 :: rest) errors_us =
          Except.error "Some TOA errors are zero - cannot calculate residuals")) := by
  have hval : (fun p : Phase => (Phase.norm 0 p.frac).value) = fun p : Phase => p.frac :=
    funext fun p => phase_norm_zero_value p.frac
  refine ⟨?_, ?_, ?_⟩
  · intro uw modelphase errs
    simp [calc_phase_resids_nearest, hval]
  · intro p0 rest errs
    simp [calc_phase_resids_nearest, hval, List.map_map, Function.comp_def]
  · intro p0 rest errs
    constructor
    · intro hno
      have hany : errs.any (fun e => decide (e = 0)) = false := by
        simp only [List.any_eq_false, decide_eq_true_eq]
        intro e he heq
        exact hno (heq ▸ he)
      simp [calc_phase_resids_nearest, hval, hany, List.map_map, Function.comp_def]
    · intro h0
      have hany : errs.any (fun e => decide (e = 0)) = true := by
        simp only [List.any_eq_true, decide_eq_true_eq]
        exact ⟨0, h0, rfl⟩
      simp [calc_phase_resids_nearest, hany]

/-- Witness for C3 at concrete inputs: with mean subtraction enabled and
weighting enabled, nonzero uncertainties give the weighted-mean-subtracted
first-observation-referenced fractional phases, and a zero uncertainty gives
the hard error. -/
theorem nearest_first_obs_reference_iff_subtract_mean_witness :
    calc_phase_resids_nearest true true [⟨0, 1/4⟩, ⟨3, -1/3⟩] [1, 1] =
      Except.ok
        ((([⟨0, 1/4⟩, ⟨3, -1/3⟩] : List Phase).map
            (fun p => (Phase.sub p (Phase.norm (0 : ℤ) (1/4))).frac)).map
          (fun x => x - weighted_mean
            (([⟨0, 1/4⟩, ⟨3, -1/3⟩] : List Phase).map
              (fun p => (Phase.sub p (Phase.norm (0 : ℤ) (1/4))).frac))
            (([1, 1] : List ℚ).map (fun e => 1 / e ^ 2)))) ∧
    calc_phase_resids_nearest true true [⟨0, 1/4⟩, ⟨3, -1/3⟩] [0, 1] =
      Except.error "Some TOA errors are zero - cannot calculate residuals" :=
  ⟨((nearest_first_obs_reference_iff_subtract_mean.2.2
      ⟨0, 1/4⟩ [⟨3, -1/3⟩] [1, 1]).1 (by decide)),
    ((nearest_first_obs_reference_iff_subtract_mean.2.2
      ⟨0, 1/4⟩ [⟨3, -1/3⟩] [0, 1]).2 (by decide))⟩

/-- C4: with correlated errors declared, calc_chi2 delegates to the external
GLS evaluator in score-only mode (zero iterations); a linear-algebra degeneracy
failure is caught, a warning is emitted and +infinity is returned, while a
successful evaluation is returned as is. -/
theorem calc_chi2_correlated_gls_delegation (m : TModel) (toas : TOAs)
    (gls : ℕ → Bool → GLSOutcome) (time_resids : List ℚ) (full_cov : Bool)
    (hm : m.has_correlated_errors = true) :
    (∀ msg, gls 0 full_cov = GLSOutcome.linAlgError msg →
      calc_chi2 m toas gls time_resids full_cov = (⊤, true)) ∧
    (∀ v, gls 0 full_cov = GLSOutcome.ok v →
      calc_chi2 m toas gls time_resids full_cov = (((v : ℚ) : WithTop ℚ), false)) := by
  constructor
  · intro msg h
    simp [calc_chi2, hm, h]
  · intro v h
    simp [calc_chi2, hm, h]

/-- Witness for C4 at a concrete input: a degenerate GLS evaluation yields
(+infinity, warning), a successful one yields its score without warning. -/
theorem calc_chi2_correlated_gls_delegation_witness :
    calc_chi2 ⟨[], fun _ => none, true⟩ ⟨[1], 1⟩
      (fun _ _ => GLSOutcome.linAlgError "singular matrix") [1] false = (⊤, true) ∧
    calc_chi2 ⟨[], fun _ => none, true⟩ ⟨[1], 1⟩
      (fun _ _ => GLSOutcome.ok 5) [1] false = (((5 : ℚ) : WithTop ℚ), false) :=
  ⟨(calc_chi2_correlated_gls_delegation ⟨[], fun _ => none, true⟩ ⟨[1], 1⟩
      (fun _ _ => GLSOutcome.linAlgError "singular matrix") [1] false rfl).1
      "singular matrix" rfl,
    (calc_chi2_correlated_gls_delegation ⟨[], fun _ => none, true⟩ ⟨[1], 1⟩
      (fun _ _ => GLSOutcome.ok 5) [1] false rfl).2 5 rfl⟩

/-- C5: get_dof returns observation count minus the number of free (non-frozen)
model parameters minus 1; with 10 observations and 2 free parameters it returns
7; and at fixed observation count it decreases by exactly 1 for each additional
free parameter. -/
theorem get_dof_count_minus_free_minus_one (toas : TOAs) (m : TModel)
    (hwf : ∀ p ∈ m.params, (m.attrs p).isSome) :
    get_dof toas m = Except.ok ((toas.ntoas : ℤ) - (numFree m : ℤ) - 1) ∧
    get_dof ⟨[], 10⟩ twoFreeModel = Except.ok 7 ∧
    (∀ (t : TOAs) (m1 m2 : TModel) (d1 d2 : ℤ),
      (∀ p ∈ m1.params, (m1.attrs p).isSome) →
      (∀ p ∈ m2.params, (m2.attrs p).isSome) →
      numFree m2 = numFree m1 + 1 →
      get_dof t m1 = Except.ok d1 → get_dof t m2 = Except.ok d2 →
      d2 = d1 - 1) := by
  refine ⟨get_dof_eq toas m hwf, ?_, ?_⟩
  · rfl
  · intro t m1 m2 d1 d2 hwf1 hwf2 hplus h1 h2
    rw [get_dof_eq t m1 hwf1] at h1
    rw [get_dof_eq t m2 hwf2] at h2
    have e1 := Except.ok.inj h1
    have e2 := Except.ok.inj h2
    rw [← e1, ← e2, hplus]
    push_cast
    ring

/-- Witness for C5 at a concrete input: 10 observations and a model with two
free parameters give 7 degrees of freedom. -/
theorem get_dof_count_minus_free_minus_one_witness :
    get_dof ⟨[], 10⟩ twoFreeModel = Except.ok 7 :=
  (get_dof_count_minus_free_minus_one ⟨[], 10⟩ twoFreeModel (by decide)).2.1

/-- The chi-squared fold of CombinedResiduals is the sum of the sources'
cached chi-squared values, for any starting accumulator. -/
lemma combined_chi2_foldl (objs : List ResidualObj) (a : WithTop ℚ) :
    objs.foldl (fun acc r => acc + r.chi2) a =
      a + (objs.map (fun r => r.chi2)).sum := by
  induction objs generalizing a with
  | nil => simp
  | cons r objs ih => simp [ih, add_assoc]

/-- C6: CombinedResiduals produces a unit-stripped value vector that is the
concatenation of the sources' value vectors in input-list order (its length is
the sum of the source lengths; concretely 5 + 3 = 8), and a total chi-squared
equal to the sum of the sources' individually cached chi-squared scalars. -/
theorem combined_resids_concat_chi2_sum (objs : List ResidualObj) :
    CombinedResiduals.resids objs = (objs.map (fun r => r.resids_value)).flatten ∧
    (CombinedResiduals.resids objs).length =
      (objs.map (fun r => r.resids_value.length)).sum ∧
    CombinedResiduals.chi2 objs = (objs.map (fun r => r.chi2)).sum ∧
    ((CombinedResiduals.resids
        [⟨[1, 2, 3, 4, 5], (10 : ℚ), "toa"⟩, ⟨[6, 7, 8], (20 : ℚ), "dm"⟩]).length = 8 ∧
      CombinedResiduals.chi2
        [⟨[1, 2, 3, 4, 5], (10 : ℚ), "toa"⟩, ⟨[6, 7, 8], (20 : ℚ), "dm"⟩] =
        ((10 : ℚ) : WithTop ℚ) + ((20 : ℚ) : WithTop ℚ)) := by
  refine ⟨rfl, ?_, ?_, ?_, ?_⟩
  · rw [CombinedResiduals.resids, List.length_flatten, List.map_map]
    rfl
  · rw [CombinedResiduals.chi2, combined_chi2_foldl, zero_add]
  · rfl
  · rw [CombinedResiduals.chi2, combined_chi2_foldl, zero_add]
    simp

/-- C7: when the correlated-noise variance contribution is zero (raw
uncertainties requested) and the binning matrix assigns every observation to
exactly one epoch, the sum over epochs of one over the squared combined
uncertainty returned by ecorr_average equals the sum over raw observations of
one over the squared uncertainty. -/
theorem ecorr_average_weight_conservation (n m : ℕ) (U : Fin n → Fin m → ℚ)
    (err : Fin n → ℚ) (ecorr_err2 : Fin m → ℚ)
    (hU01 : ∀ i e, U i e = 0 ∨ U i e = 1)
    (hrow : ∀ i, ∃! e, U i e = 1) :
    (∑ e, 1 / ecorr_avg_errors_sq n m U err ecorr_err2 false e) =
      ∑ i, 1 / (err i * err i) := by
  have hrowsum : ∀ i, (∑ e, U i e) = 1 := by
    intro i
    obtain ⟨e0, he0, huniq⟩ := hrow i
    rw [Finset.sum_eq_single e0]
    · exact he0
    · intro e _ hne
      rcases hU01 i e with h | h
      · exact h
      · exact absurd (huniq e h) hne
    · intro h
      exact absurd (Finset.mem_univ e0) h
  calc (∑ e, 1 / ecorr_avg_errors_sq n m U err ecorr_err2 false e)
      = ∑ e, a_norm n m U (fun i => 1 / (err i * err i)) e := by
        refine Finset.sum_congr rfl fun e _ => ?_
        rw [show ecorr_avg_errors_sq n m U err ecorr_err2 false e =
            1 / a_norm n m U (fun i => 1 / (err i * err i)) e by
          simp [ecorr_avg_errors_sq]]
        rw [one_div_one_div]
    _ = ∑ i, (∑ e, U i e) * (1 / (err i * err i)) := by
        simp only [a_norm]
        rw [Finset.sum_comm]
        refine Finset.sum_congr rfl fun i _ => ?_
        rw [Finset.sum_mul]
    _ = ∑ i, 1 / (err i * err i) := by
        refine Finset.sum_congr rfl fun i _ => ?_
        rw [hrowsum i, one_mul]

/-- Witness for C7 at a concrete input: two observations of unit uncertainty
binned into one epoch conserve the total weight 2. -/
theorem ecorr_average_weight_conservation_witness :
    (∑ e : Fin 1, 1 / ecorr_avg_errors_sq 2 1 (fun _ _ => 1) (fun _ => 1)
        (fun _ => 0) false e) =
      ∑ _i : Fin 2, 1 / ((1 : ℚ) * 1) :=
  ecorr_average_weight_conservation 2 1 (fun _ _ => 1) (fun _ => 1) (fun _ => 0)
    (fun _ _ => Or.inr rfl) (fun _ => ⟨0, rfl, fun e _ => Subsingleton.elim e 0⟩)

/-- A model whose only recognized spin parameter is nu and which has no F0
attribute. -/
def nuOnlyModel : TModel :=
  { params := ["nu"]
    attrs := fun s => if s = "nu" then some ⟨7, "Hz", false⟩ else none
    has_correlated_errors := false }

/-- C8 counterexample: for a model whose parameter list contains exactly one
recognized spin-frequency name, namely nu, but which has no F0 attribute,
get_PSR_freq does not return the value: the dead units sanity check dereferences
model.F0 unconditionally and the call fails with an attribute error, refuting
"when exactly one matches, it returns that parameter's value in Hz without
raising, regardless of any other model property". -/
theorem get_PSR_freq_nu_only_attribute_error :
    nF0count nuOnlyModel = 1 ∧
    get_PSR_freq nuOnlyModel = Except.error PyErr.attributeError := by
  constructor
  · rfl
  · rfl

/-- C8 amended: provided the model has an F0 attribute (the units sanity check
dereferences model.F0 unconditionally before the name count) and every
recognized name listed among the parameters resolves to an attribute,
get_PSR_freq raises the hard configuration error exactly when the number of
recognized spin-frequency names among the parameters is not one, and with
exactly one match it returns that parameter's value in Hz. -/
theorem get_PSR_freq_exactly_one (m : TModel)
    (hF0 : (m.attrs "F0").isSome)
    (hwf : ∀ n ∈ F0names, n ∈ m.params → (m.attrs n).isSome) :
    (nF0count m ≠ 1 → ∃ msg, get_PSR_freq m = Except.error (PyErr.valueError msg)) ∧
    (nF0count m = 1 → ∃ p,
      (("F0" ∈ m.params ∧ m.attrs "F0" = some p) ∨
        ("nu" ∈ m.params ∧ m.attrs "nu" = some p)) ∧
      get_PSR_freq m = Except.ok p.value) := by
  obtain ⟨f0, hf0⟩ := Option.isSome_iff_exists.mp hF0
  by_cases hFm : "F0" ∈ m.params <;> by_cases hnm : "nu" ∈ m.params
  · obtain ⟨pnu, hnu⟩ := Option.isSome_iff_exists.mp (hwf "nu" (by simp [F0names]) hnm)
    have hcnt : nF0count m = 2 := by simp [nF0count, F0names, hFm, hnm]
    have hrun : get_PSR_freq m =
        Except.error (PyErr.valueError "more than one PSR frequency parameter found") := by
      simp [get_PSR_freq, getattrM, hf0, hnu, F0names, List.foldlM_cons, List.foldlM_nil,
        hFm, hnm]
      rfl
    constructor
    · intro _
      exact ⟨_, hrun⟩
    · intro hone
      rw [hcnt] at hone
      exact absurd hone (by decide)
  · have hcnt : nF0count m = 1 := by simp [nF0count, F0names, hFm, hnm]
    have hrun : get_PSR_freq m = Except.ok f0.value := by
      simp [get_PSR_freq, getattrM, hf0, F0names, List.foldlM_cons, List.foldlM_nil,
        hFm, hnm]
      rfl
    constructor
    · intro hne
      exact absurd hcnt hne
    · intro _
      exact ⟨f0, Or.inl ⟨hFm, hf0⟩, hrun⟩
  · obtain ⟨pnu, hnu⟩ := Option.isSome_iff_exists.mp (hwf "nu" (by simp [F0names]) hnm)
    have hcnt : nF0count m = 1 := by simp [nF0count, F0names, hFm, hnm]
    have hrun : get_PSR_freq m = Except.ok pnu.value := by
      simp [get_PSR_freq, getattrM, hf0, hnu, F0names, List.foldlM_cons, List.foldlM_nil,
        hFm, hnm]
      rfl
    constructor
    · intro hne
      exact absurd hcnt hne
    · intro _
      exact ⟨pnu, Or.inr ⟨hnm, hnu⟩, hrun⟩
  · have hcnt : nF0count m = 0 := by simp [nF0count, F0names, hFm, hnm]
    have hrun : get_PSR_freq m =
        Except.error (PyErr.valueError "no PSR frequency parameter found") := by
      simp [get_PSR_freq, getattrM, hf0, F0names, List.foldlM_cons, List.foldlM_nil,
        hFm, hnm]
      rfl
    constructor
    · intro _
      exact ⟨_, hrun⟩
    · intro hone
      rw [hcnt] at hone
      exact absurd hone (by decide)

/-- Witness for the amended C8 at a concrete input: a model exposing only F0
resolves to that parameter's value. -/
theorem get_PSR_freq_exactly_one_witness :
    ∃ p, (("F0" ∈ ["F0"] ∧
        (fun s => if s = "F0" then some (⟨7, "Hz", false⟩ : Param) else none) "F0" = some p) ∨
      ("nu" ∈ ["F0"] ∧
        (fun s => if s = "F0" then some (⟨7, "Hz", false⟩ : Param) else none) "nu" = some p)) ∧
    get_PSR_freq ⟨["F0"], fun s => if s = "F0" then some ⟨7, "Hz", false⟩ else none, false⟩ =
      Except.ok p.value :=
  (get_PSR_freq_exactly_one
    ⟨["F0"], fun s => if s = "F0" then some ⟨7, "Hz", false⟩ else none, false⟩
    (by decide) (by decide)).2 (by decide)

/-- C9: WidebandDMResiduals.update_model replaces the stored model and writes
the new model's prediction function into the attribute model_func, but the
callable actually used by calc_resids, get_model_value bound at construction,
is left unchanged; residuals computed after update_model therefore coincide
with those of the original object, still using the old model's
dispersion-measure predictions. -/
theorem update_model_leaves_resids_stale (toas : TOAs) (m0 m1 : DMModel)
    (dm_data dm_error : List ℚ) (subtract_mean use_weighted_mean : Bool) :
    (WidebandDMResiduals.update_model
        (WidebandDMResiduals.init toas m0 dm_data dm_error subtract_mean use_weighted_mean)
        m1).model = m1 ∧
    (WidebandDMResiduals.update_model
        (WidebandDMResiduals.init toas m0 dm_data dm_error subtract_mean use_weighted_mean)
        m1).model_func = some m1.dm_value ∧
    (WidebandDMResiduals.update_model
        (WidebandDMResiduals.init toas m0 dm_data dm_error subtract_mean use_weighted_mean)
        m1).get_model_value = m0.dm_value ∧
    WidebandDMResiduals.calc_resids
        (WidebandDMResiduals.update_model
          (WidebandDMResiduals.init toas m0 dm_data dm_error subtract_mean use_weighted_mean)
          m1) =
      WidebandDMResiduals.calc_resids
        (WidebandDMResiduals.init toas m0 dm_data dm_error subtract_mean use_weighted_mean) :=
  ⟨rfl, rfl, rfl, rfl⟩

/-- C10: Residuals.update is not atomic on its error path: invoked while the
observation set or the model is absent, it first overwrites the stored
phase-residual and time-residual sequences with None and only then raises the
configuration error, destroying previously computed residual state. -/
theorem update_clobbers_state_before_raising
    (recalcPhase recalcTime : TOAs → TModel → List ℚ)
    (recalcDof : TOAs → TModel → ℤ) (s : RState)
    (h : s.toas = none ∨ s.model = none) :
    (Residuals.update recalcPhase recalcTime recalcDof s).2.isSome = true ∧
    (Residuals.update recalcPhase recalcTime recalcDof s).1.phase_resids = none ∧
    (Residuals.update recalcPhase recalcTime recalcDof s).1.time_resids = none := by
  rcases s with ⟨t, mo, pr, tr, c2, d⟩
  rcases h with h | h
  · subst h
    simp [Residuals.update]
  · subst h
    cases t <;> simp [Residuals.update]

/-- Witness for C10 at a concrete input: a state with no observation set but
previously computed residual sequences loses them while the call raises. -/
theorem update_clobbers_state_before_raising_witness :
    (Residuals.update (fun _ _ => []) (fun _ _ => []) (fun _ _ => 0)
        ⟨none, none, some [1], some [2], some 3, 5⟩).2.isSome = true ∧
    (Residuals.update (fun _ _ => []) (fun _ _ => []) (fun _ _ => 0)
        ⟨none, none, some [1], some [2], some 3, 5⟩).1.phase_resids = none ∧
    (Residuals.update (fun _ _ => []) (fun _ _ => []) (fun _ _ => 0)
        ⟨none, none, some [1], some [2], some 3, 5⟩).1.time_resids = none :=
  update_clobbers_state_before_raising (fun _ _ => []) (fun _ _ => []) (fun _ _ => 0)
    ⟨none, none, some [1], some [2], some 3, 5⟩ (Or.inl rfl)

end PintResiduals
